import Mathlib

/-!
# Verification of the softgames-challenge repository

Shallow embedding, in Lean 4, of the parts of the TypeScript source that the
claims are about:

* `src/core/Utils.ts` — the `{tag}` emoji substitution pass
  (`textToHtmlWithEmojis`, `processEmojiMatch`);
* `src/core/AssetLoader.ts` — the preloading fan-out with its per-category
  completion counting, cache writes and failure handling;
* `src/ui/GameScene.ts` and the games' `start`/`destroy` — ticker listener
  registration and removal on scene teardown;
* `src/games/MagicWords.ts` — dialogue-data lookup from the cache and what
  happens when the remote fetch failed;
* `src/games/AceOfShadows.ts` — the card-dealing state (stacks, in-flight
  list), the metronome `update`, `dealTopCard`, the rotation-path choice,
  the ease-out interpolation, `toggleSpeedBoost` and `dealCardToHolders`.

Numbers: times and positions are embedded as rationals (the code only adds,
subtracts, multiplies, divides and compares them, so `ℚ` is exact).
Rotations are also rationals, measured in units of π: the code manipulates
rotations only linearly (`Math.PI * 1.5` becomes `3/2`, a full turn
`Math.PI * 2` becomes `2`), and every comparison between rotation amounts is
invariant under the positive scaling by π, so the unit change is exact.

The file is laid out with all definitions first and all theorems after.
-/

namespace Utils

/-- `{` as a character (code point 123). -/
def lbraceChar : Char := Char.ofNat 123

/-- `}` as a character (code point 125). -/
def rbraceChar : Char := Char.ofNat 125

/-- JS `\w` without the `u` flag: ASCII letters, digits and underscore.
The regex in `Utils.ts` line 98 is `/\{(\w+)\}/g`. -/
def isWordChar (c : Char) : Bool :=
  c.isAlpha || c.isDigit || c = '_'

/-- Attempt to match `\w+\}` at the start of the character list (the part of
the regex `/\{(\w+)\}/` after the opening brace).  Returns the captured word
and the remainder after the closing brace.  `none` when the regex does not
match here: empty word, a non-word character before any `}`, or no `}`. -/
def matchTag : List Char → Option (List Char × List Char)
  | [] => none
  | c :: cs =>
    if isWordChar c then
      match cs with
      | [] => none
      | d :: _ =>
        if d = rbraceChar then some ([c], cs.tail)
        else (matchTag cs).map (fun p => (c :: p.1, p.2))
    else none

/-- A piece of the scanned text: a literal character copied through, or a
recognized `{tag}` whose captured name is the given character list. -/
inductive Piece where
  | lit : Char → Piece
  | tag : List Char → Piece
deriving DecidableEq, Repr

/-- The scanning loop of `textToHtmlWithEmojis` (`Utils.ts` lines 101–121),
written with explicit fuel so that it is structurally recursive (the fuel is
an upper bound on the characters left; `scan` always supplies enough):
repeated `emojiRegex.exec` finds the leftmost occurrence of `\{(\w+)\}`;
text before a match is copied verbatim, matches become `tag` pieces.
Character-by-character leftmost matching is exactly what `exec` with a
`g`-flag regex does here. -/
def scanF : Nat → List Char → List Piece
  | 0, _ => []
  | _ + 1, [] => []
  | fuel + 1, c :: cs =>
    if c = lbraceChar then
      match matchTag cs with
      | some (w, r) => Piece.tag w :: scanF fuel r
      | none => Piece.lit c :: scanF fuel cs
    else
      Piece.lit c :: scanF fuel cs

/-- The scanning pass over a whole character list. -/
def scan (cs : List Char) : List Piece := scanF cs.length cs

/-- Reassemble scanned pieces back into characters, re-bracing the tags;
used to state that scanning loses or duplicates nothing. -/
def reassemble (ps : List Piece) : List Char :=
  ps.flatMap (fun p =>
    match p with
    | Piece.lit c => [c]
    | Piece.tag w => lbraceChar :: w ++ [rbraceChar])

/-- `Math.round(fontSize * 1.1)` for a natural font size (`Utils.ts`
line 99); `(n*11 + 5) / 10` is round-half-up of `n*1.1`, which agrees with
`Math.round` on these inputs. -/
def emojiSizeOf (fontSize : Nat) : Nat := (fontSize * 11 + 5) / 10

/-- The inline style of a substituted emoji image (`Utils.ts` line 80). -/
def imgStyle (emojiSize : Nat) : String :=
  "display:inline-block;vertical-align:middle;width:" ++ toString emojiSize ++
  "px;height:" ++ toString emojiSize ++ "px;margin:0 4px;padding-bottom:8px;"

/-- The `<img>` tag produced for a known emoji (`Utils.ts` line 81). -/
def imgTag (base64 : String) (emojiSize : Nat) : String :=
  "<img src=\"" ++ base64 ++ "\" style=\"" ++ imgStyle emojiSize ++ "\" />"

/-- The inline style of the fallback glyph (`Utils.ts` line 84). -/
def spanStyle (emojiSize : Nat) : String :=
  "display:inline-block;width:" ++ toString emojiSize ++ "px;height:" ++
  toString emojiSize ++ "px;line-height:" ++ toString emojiSize ++
  "px;text-align:center;"

/-- The fallback `<span>` with the replacement character U+FFFD produced for
an unknown emoji (`Utils.ts` line 85). -/
def fallbackSpan (emojiSize : Nat) : String :=
  "<span style=\"" ++ spanStyle emojiSize ++ "\">�</span>"

/-- `processEmojiMatch` (`Utils.ts` lines 71–87): image tag when the name is
in the base64 map, fallback span otherwise.  The map is embedded as an
association list. -/
def processEmojiMatch (emojiName : String) (emojiBase64Map : List (String × String))
    (emojiSize : Nat) : String :=
  match emojiBase64Map.lookup emojiName with
  | some base64 => imgTag base64 emojiSize
  | none => fallbackSpan emojiSize

/-- Render one scanned piece to output text. -/
def renderPiece (emojiBase64Map : List (String × String)) (emojiSize : Nat) :
    Piece → String
  | Piece.lit c => String.singleton c
  | Piece.tag w => processEmojiMatch (String.mk w) emojiBase64Map emojiSize

/-- `textToHtmlWithEmojis` (`Utils.ts` lines 93–123): scan the text for
`\{(\w+)\}` matches, substitute each through `processEmojiMatch`, copy the
rest verbatim, and concatenate. -/
def textToHtmlWithEmojis (text : String) (emojiBase64Map : List (String × String))
    (fontSize : Nat) : String :=
  String.join ((scan text.data).map (renderPiece emojiBase64Map (emojiSizeOf fontSize)))

/-- Is the piece a literal character (copied through unchanged)? -/
def pieceIsLit : Piece → Bool
  | Piece.lit _ => true
  | Piece.tag _ => false

end Utils

namespace AssetLoader

/-!
`src/core/AssetLoader.ts`.  A load run is abstracted by the success/failure
outcome of each declared asset, one `Bool` list per category, in declaration
order.  For each category we embed how many times `markAssetComplete` is
invoked over the whole run (each call increments `completedAssets` by one and
reports `completedAssets / totalAssets` to the loading scene, lines 72–80),
whether the category's promise resolves, and what ends up in the cache.
This follows the schedule in which each per-asset task settles (and performs
its own completion marking) before the category's `catch` block runs — a
schedule the event loop can produce, e.g. when the failing fetch is the last
to settle.
-/

/-- Outcome of one load run: per category, the per-asset success flags
(declaration order). -/
structure Outcomes where
  regular : List Bool
  video : List Bool
  dialogue : List Bool
  particle : List Bool
  audio : List Bool

/-- Number of successful assets in a category. -/
def countTrue (l : List Bool) : Nat := l.count true

/-- `loadRegularAssets` (lines 102–111): `Assets.load` invokes the progress
callback — and hence `markAssetComplete` — once per asset that loads; on any
failure the returned promise is rejected (`.catch(error => reject(error))`,
line 109). -/
def regularMarks (l : List Bool) : Nat := countTrue l

/-- Whether `loadRegularAssets` resolves: only when every asset loads. -/
def regularResolves (l : List Bool) : Bool := l.all id

/-- `createBackgroundVideoTexture` (lines 151–197): each video marks
completion from its `loadeddata` handler; an `error` event rejects that
video's promise, and the surrounding catch logs and rethrows (line 195). -/
def videoMarks (l : List Bool) : Nat := countTrue l

/-- Whether `createBackgroundVideoTexture` resolves: only when every video
loads. -/
def videoResolves (l : List Bool) : Bool := l.all id

/-- `loadDialogueData` (lines 199–238) and `loadParticleConfigs`
(lines 240–280) share this shape: each item calls `markAssetComplete` on its
own success; if any item fails, the category-level catch additionally calls
`markAssetComplete` once per declared asset of the category ("Mark remaining
assets as complete to avoid hanging"). -/
def catMarks (l : List Bool) : Nat :=
  countTrue l + (if l.all id then 0 else l.length)

/-- In the same two categories, the catch overwrites the cache entry of
*every* declared key of the category with `null` (lines 227–232 and
270–274); on an all-success run each key holds its data.  `true` means the
key ended up `null`. -/
def catKeyNull (l : List Bool) : Bool := !(l.all id)

/-- `loadAudioAssets` (lines 113–149): each asset's `loaded` callback calls
`markAssetComplete` (the callback fires for failures as well, with the error
as its argument), and a synchronous `sound.add` throw marks in the inner
catch — so exactly one mark per declared audio asset, and the returned
promise always resolves. -/
def audioMarks (l : List Bool) : Nat := l.length

/-- `loadAllAssets` (lines 82–100): `totalAssets` is the sum of the five
category sizes. -/
def totalAssets (o : Outcomes) : Nat :=
  o.regular.length + o.video.length + o.dialogue.length + o.particle.length +
    o.audio.length

/-- Total number of `markAssetComplete` calls over the run. -/
def completedAssets (o : Outcomes) : Nat :=
  regularMarks o.regular + videoMarks o.video + catMarks o.dialogue +
    catMarks o.particle + audioMarks o.audio

/-- Whether the `Promise.all` of `loadAllAssets` resolves: the dialogue,
particle and audio loaders swallow their failures, but a regular-asset
failure rejects `loadRegularAssets` and a video failure is rethrown by
`createBackgroundVideoTexture`, so the whole operation rejects. -/
def loadAllResolves (o : Outcomes) : Bool :=
  regularResolves o.regular && videoResolves o.video

/-- The value reported by the last progress callback of the run:
`completedAssets / totalAssets` after the final `markAssetComplete`. -/
def lastProgress (o : Outcomes) : ℚ :=
  (completedAssets o : ℚ) / (totalAssets o : ℚ)

/-- A category in which a failure, if any, happened with no success marked:
either everything succeeded or nothing did.  (The partial mixes are the ones
that overcount.) -/
def allOrNothing (l : List Bool) : Prop :=
  l.all id = true ∨ countTrue l = 0

/-- The shipped manifest sizes (`AssetLoader.ts` lines 8–49): 7 regular
sprites, 1 background video, 1 remote dialogue document, 2 particle configs,
11 audio clips. -/
def shippedOutcomes (reg vid dia : Bool) (par : List Bool) (aud : Bool) : Outcomes :=
  { regular := List.replicate 7 reg
    video := [vid]
    dialogue := [dia]
    particle := par
    audio := List.replicate 11 aud }

end AssetLoader

namespace SceneHost

/-!
Teardown of a game scene: `GameScene.destroy` (`src/ui/GameScene.ts`
lines 120–130) against the games' `start`/`destroy`.  The shared frame clock
is PIXI's ticker; `Ticker.add(fn, context)` appends a listener and
`Ticker.remove(fn, context)` removes exactly the listeners whose callback
*and* context both match (`TickerListener.match`).  Every listener in the
list is invoked on each subsequent frame.
-/

/-- The per-frame callbacks the three games and the scene host register. -/
inductive TickerFn where
  | update
  | dealCardToHolders
  | flipDealtCards
  | updateVideoFade
  | animateDarkening
  | animateBannerFadeIn
deriving DecidableEq, Repr

/-- The `this` context a listener was registered with: each game passes its
own instance; `GameScene.destroy` passes the `GameScene` instance. -/
inductive TickerCtx where
  | game
  | gameScene
deriving DecidableEq, Repr

/-- The shared ticker: the ordered list of (callback, context) listeners. -/
abbrev Ticker := List (TickerFn × TickerCtx)

/-- `Ticker.add(fn, context)`. -/
def tickerAdd (t : Ticker) (fn : TickerFn) (ctx : TickerCtx) : Ticker :=
  List.append t [(fn, ctx)]

/-- `Ticker.remove(fn, context)`: drops listeners matching both fields. -/
def tickerRemove (t : Ticker) (fn : TickerFn) (ctx : TickerCtx) : Ticker :=
  List.filter (fun l => !(l.1 = fn && l.2 = ctx)) t

/-- `PhoenixFlame.start` / `AceOfShadows.start` / `MagicWords.start` all do
`this.app.ticker.add(this.update, this)` with the game as context. -/
def gameStart (t : Ticker) : Ticker := tickerAdd t TickerFn.update TickerCtx.game

/-- `PhoenixFlame.destroy` (lines 338–347): stops sounds and destroys the
emitters; performs no ticker removal. -/
def phoenixFlameDestroy (t : Ticker) : Ticker := t

/-- `AceOfShadows.destroy` (lines 309–342): removes `dealCardToHolders`,
`flipDealtCards` and `updateVideoFade` (all added with the game as context),
but not `update`. -/
def aceOfShadowsDestroy (t : Ticker) : Ticker :=
  tickerRemove
    (tickerRemove (tickerRemove t TickerFn.dealCardToHolders TickerCtx.game)
      TickerFn.flipDealtCards TickerCtx.game)
    TickerFn.updateVideoFade TickerCtx.game

/-- `MagicWords.destroy` (part_002 lines 492–513): removes
`animateDarkening`, `animateBannerFadeIn` and `update`, each with the game
as context. -/
def magicWordsDestroy (t : Ticker) : Ticker :=
  tickerRemove
    (tickerRemove (tickerRemove t TickerFn.animateDarkening TickerCtx.game)
      TickerFn.animateBannerFadeIn TickerCtx.game)
    TickerFn.update TickerCtx.game

/-- `GameScene.destroy` (lines 120–130): first
`this.app.ticker.remove(this.game.update, this)` — note the context passed
is the `GameScene`, not the game the listener was added with — then the
game's own `destroy`. -/
def gameSceneDestroy (gameDestroy : Ticker → Ticker) (t : Ticker) : Ticker :=
  gameDestroy (tickerRemove t TickerFn.update TickerCtx.gameScene)

end SceneHost

namespace MagicWords

/-!
`src/games/MagicWords.ts` (src/unnamed/part_002), the current dialogue
scene, fed by `AssetLoader.loadDialogueData`.
-/

/-- One dialogue line of the remote document. -/
structure DialogueEntry where
  name : String
  text : String

/-- An emoji declaration of the remote document. -/
structure EmojiDecl where
  name : String
  url : String

/-- An avatar declaration of the remote document. -/
structure AvatarDecl where
  name : String
  url : String
  position : String

/-- The remote dialogue document (`DialogueData` interface, part_002
lines 21–35). -/
structure DialogueData where
  dialogue : List DialogueEntry
  emojies : List EmojiDecl
  avatars : List AvatarDecl

/-- What `Assets.cache.get('dialogue-data-magicwords')` yields in
`MagicWords.loadDialogueData` (part_002 lines 250–255): the parsed document
if the remote fetch succeeded, or the `null` that
`AssetLoader.loadDialogueData`'s catch stored (AssetLoader.ts line 231). -/
def cachedDialogueData (fetchOk : Bool) (d : DialogueData) : Option DialogueData :=
  if fetchOk then some d else none

/-- A JavaScript runtime error escaping a handler. -/
inductive JsError where
  | typeErrorNullDeref
deriving DecidableEq, Repr

/-- What `showCurrentDialogue` can put on screen.  The current `MagicWords`
has no error-message element of any kind (its only text elements are the
character name, the dialogue text, the continue indicator and the completion
message) — unlike the earlier implementation, which had a `showError`
rendering "Failed to load dialogue data". -/
inductive ShownView where
  | entry (name text : String)
  | complete
deriving DecidableEq, Repr

/-- `isDialogueComplete` (part_002 lines 257–259):
`this.currentDialogueIndex >= this.dialogueData.dialogue.length`.  On a
`null` document the property read throws a `TypeError`. -/
def isDialogueComplete (dd : Option DialogueData) (idx : Nat) : Except JsError Bool :=
  match dd with
  | none => Except.error JsError.typeErrorNullDeref
  | some d => Except.ok (decide (idx ≥ d.dialogue.length))

/-- `showCurrentDialogue` (part_002 lines 261–278): completion view when the
index ran past the end, otherwise the current entry's name and text.  The
exception from `isDialogueComplete` propagates (it is called inside the
`animateBannerFadeIn` ticker callback with no try/catch on the way). -/
def showCurrentDialogue (dd : Option DialogueData) (idx : Nat) :
    Except JsError ShownView :=
  match isDialogueComplete dd idx with
  | Except.error e => Except.error e
  | Except.ok true => Except.ok ShownView.complete
  | Except.ok false =>
    match dd with
    | none => Except.error JsError.typeErrorNullDeref
    | some d =>
      let e := d.dialogue.getD idx { name := "", text := "" }
      Except.ok (ShownView.entry e.name e.text)

end MagicWords

namespace AceOfShadows

/-!
`src/games/AceOfShadows.ts`.  Cards are identified by their creation index
(0–143); the JS arrays `mainStack`, `topStack`, `bottomStack`,
`movingCards`, `cardsInHolders` are lists of identifiers with `push`
appending at the end and `pop` taking the last element, as in JS.  Per-card
animation state lives in a map from identifier to `Card`.  Times are in
milliseconds.  Rotations are in units of π (see the file header).  The
`Math.random()` draws are threaded in as explicit parameters.
-/

/-- The animation state carried by a `Card` sprite (`AceOfShadows.ts`
lines 14–34), plus the sprite's own `x`, `y`, `rotation`. -/
structure Card where
  x : ℚ
  y : ℚ
  rotation : ℚ
  initialX : ℚ
  targetX : ℚ
  initialY : ℚ
  targetY : ℚ
  moveTimeElapsed : ℚ
  initialRotation : ℚ
  targetRotation : ℚ
deriving DecidableEq, Repr

/-- The scene state: the five card collections, the per-card animation data,
the metronome and speed settings, and the layout quantities that
`dealTopCard`/`dealCardToHolders` read (`topEndPosition`,
`bottomEndPosition`, `scaled(CARD_STACK_OFFSET)`, `cardHolderPositions`). -/
structure AceState where
  mainStack : List Nat
  topStack : List Nat
  bottomStack : List Nat
  movingCards : List Nat
  cardsInHolders : List Nat
  cards : Nat → Card
  currentTarget : Bool
  moveCooldown : ℚ
  dealCardCooldown : ℚ
  moveInterval : ℚ
  animationDuration : ℚ
  hurryUpButton : Bool
  topEndX : ℚ
  topEndY : ℚ
  bottomEndX : ℚ
  bottomEndY : ℚ
  stackOffset : ℚ
  holderPos : Nat → ℚ × ℚ × ℚ

/-- `boostedMoveInterval` (line 108). -/
def boostedMoveInterval : ℚ := 10

/-- `boostedAnimationDuration` (line 109). -/
def boostedAnimationDuration : ℚ := 200

/-- `winSequenceDealCooldown` (line 103). -/
def winSequenceDealCooldown : ℚ := 200

/-- The scene right after `createCards` (lines 497–538): 144 cards pushed
into `cards` and `mainStack` in creation order; every other collection
empty; `moveCooldown` and `dealCardCooldown` start at 0, `moveInterval` at
1000 ms, `animationDuration` at 2000 ms, `currentTarget` at `'top'`, and the
"Hurry up!" button present.  The cards' initial placement (random pile
positions and rotations) and the layout quantities are parameters. -/
def initState (cardsInit : Nat → Card) (tex tey bex bey off : ℚ)
    (hp : Nat → ℚ × ℚ × ℚ) : AceState :=
  { mainStack := List.range 144
    topStack := []
    bottomStack := []
    movingCards := []
    cardsInHolders := []
    cards := cardsInit
    currentTarget := true
    moveCooldown := 0
    dealCardCooldown := 0
    moveInterval := 1000
    animationDuration := 2000
    hurryUpButton := true
    topEndX := tex
    topEndY := tey
    bottomEndX := bex
    bottomEndY := bey
    stackOffset := off
    holderPos := hp }

/-- The sign of the random rotation direction: `Math.random() > 0.5 ? 1 : -1`
(line 587). -/
def dealDirection (randAboveHalf : Bool) : Int :=
  if randAboveHalf then 1 else -1

/-- The rotation-amount selection of `dealTopCard` (lines 589–598), in units
of π: keep `rotationDiff` if its sign already matches the chosen direction,
otherwise go the other way around by adding or subtracting a full turn
(`Math.PI * 2`, i.e. `2`). -/
def rotationAmount (direction : Int) (rotationDiff : ℚ) : ℚ :=
  if direction > 0 then
    if rotationDiff ≥ 0 then rotationDiff else rotationDiff + 2
  else
    if rotationDiff ≤ 0 then rotationDiff else rotationDiff - 2

/-- The target rotation by destination (line 584): `Math.PI * 1.5` (270°)
for the top stack, `Math.PI * 0.5` (90°) for the bottom stack — in units of
π, `3/2` and `1/2`. -/
def dealTargetRotation (isTopTarget : Bool) : ℚ :=
  if isTopTarget then 3/2 else 1/2

/-- `dealTopCard` (lines 540–619): pop the main stack's last card, compute
its slot in the destination stack (end position offset by
`targetStack.length * scaled(CARD_STACK_OFFSET)` with the destination's
signs), toggle the destination for the next deal, set up the movement and
rotation animation, and push the card onto *both* the destination stack and
`movingCards`.  `randAboveHalf` is the `Math.random() > 0.5` draw for the
rotation direction.  (The side effects on sound, z-order and button
visibility have no bearing on the collections or the animation state.) -/
def dealTopCard (randAboveHalf : Bool) (s : AceState) : AceState :=
  match s.mainStack.getLast? with
  | none => s
  | some topCard =>
    let mainStack := s.mainStack.dropLast
    let isTopTarget := s.currentTarget
    let targetStack := if isTopTarget then s.topStack else s.bottomStack
    let endX := if isTopTarget then s.topEndX else s.bottomEndX
    let endY := if isTopTarget then s.topEndY else s.bottomEndY
    let stackX := endX + targetStack.length * s.stackOffset * (if isTopTarget then -1 else 1)
    let stackY := endY + targetStack.length * s.stackOffset * (if isTopTarget then 1 else -1)
    let c := s.cards topCard
    let targetRotation := dealTargetRotation isTopTarget
    let amount := rotationAmount (dealDirection randAboveHalf) (targetRotation - c.rotation)
    let c' : Card :=
      { c with
        targetX := stackX
        targetY := stackY
        moveTimeElapsed := 0
        targetRotation := c.rotation + amount
        initialX := c.x
        initialY := c.y
        initialRotation := c.rotation }
    { s with
      mainStack := mainStack
      currentTarget := !s.currentTarget
      topStack := if isTopTarget then targetStack ++ [topCard] else s.topStack
      bottomStack := if isTopTarget then s.bottomStack else targetStack ++ [topCard]
      movingCards := s.movingCards ++ [topCard]
      cards := fun i => if i = topCard then c' else s.cards i }

/-- The easing curve `1 - (1 - progress)^3` (line 196). -/
def easeOutCubic (progress : ℚ) : ℚ := 1 - (1 - progress) ^ 3

/-- One pass of the moving-cards loop body over a single card
(lines 186–216): advance its elapsed time by the frame delta, clamp the
normalized progress at 1, apply the ease-out curve to x, y and rotation, and
snap exactly onto the target when progress reaches 1. -/
def stepMovingCard (animationDuration dt : ℚ) (c : Card) : Card :=
  let elapsed := c.moveTimeElapsed + dt
  let progress := min (elapsed / animationDuration) 1
  let easeProgress := easeOutCubic progress
  let moved : Card :=
    { c with
      moveTimeElapsed := elapsed
      x := c.initialX + (c.targetX - c.initialX) * easeProgress
      y := c.initialY + (c.targetY - c.initialY) * easeProgress
      rotation := c.initialRotation + (c.targetRotation - c.initialRotation) * easeProgress }
  if progress ≥ 1 then
    { moved with x := c.targetX, y := c.targetY, rotation := c.targetRotation }
  else moved

/-- Whether the card's animation completes this frame (`progress >= 1`,
line 209), in which case the loop splices it out of `movingCards`. -/
def movingCardDone (animationDuration dt : ℚ) (c : Card) : Bool :=
  min ((c.moveTimeElapsed + dt) / animationDuration) 1 ≥ 1

/-- The whole moving-cards loop (lines 186–217): every listed card is
stepped once, completed ones leave the in-flight list.  (The backwards
iteration with `splice` visits each entry exactly once; the identifiers in
`movingCards` are distinct.) -/
def updateMovingCards (animationDuration dt : ℚ) (ids : List Nat)
    (cards : Nat → Card) : List Nat × (Nat → Card) :=
  (ids.filter (fun i => !(movingCardDone animationDuration dt (cards i))),
   fun i => if i ∈ ids then stepMovingCard animationDuration dt (cards i) else cards i)

/-- `update` (lines 166–252): tick the metronome down by the frame delta;
when it expired and the main pile is non-empty, deal the top card and reset
the cooldown to the (possibly boosted) interval; then run the moving-cards
loop — which also advances a card dealt in this same frame.  (The
win-button visibility flip and the flip-animation loop touch none of the
card collections.) -/
def update (dt : ℚ) (randAboveHalf : Bool) (s : AceState) : AceState :=
  let cooldown := s.moveCooldown - dt
  let s1 : AceState := { s with moveCooldown := cooldown }
  let s2 : AceState :=
    if cooldown ≤ 0 ∧ s1.mainStack ≠ [] then
      { dealTopCard randAboveHalf s1 with moveCooldown := s1.moveInterval }
    else s1
  let stepped := updateMovingCards s2.animationDuration dt s2.movingCards s2.cards
  { s2 with movingCards := stepped.1, cards := stepped.2 }

/-- `toggleSpeedBoost` (lines 483–495): set the deal interval and the flight
duration to their boosted values, reset the metronome to the (new) interval,
and destroy the "Hurry up!" button. -/
def toggleSpeedBoost (s : AceState) : AceState :=
  { s with
    moveInterval := boostedMoveInterval
    animationDuration := boostedAnimationDuration
    moveCooldown := boostedMoveInterval
    hurryUpButton := false }

/-- `dealCardToHolders` (lines 654–693), the win-sequence ticker callback:
once five cards sit in the holders it stops (swapping ticker callbacks);
otherwise it ticks its own cooldown and, when due, pops the bottom stack's
top card toward the next holder slot, pushes it onto `cardsInHolders` and
`movingCards`, and rewrites the timing state: `dealCardCooldown` and
`animationDuration` to 200 ms and `moveInterval` to
`winSequenceDealCooldown - 50 = 150` ms.  (The code pops with a non-null
assertion; the bottom stack holds 72 cards when the sequence starts, so the
empty case is unreachable and modelled as a no-op on the collections.) -/
def dealCardToHolders (dt : ℚ) (s : AceState) : AceState :=
  if s.cardsInHolders.length ≥ 5 then s
  else
    let cooldown := s.dealCardCooldown - dt
    if cooldown > 0 then { s with dealCardCooldown := cooldown }
    else
      match s.bottomStack.getLast? with
      | none => { s with dealCardCooldown := cooldown }
      | some cardToDeal =>
        let targetPos := s.holderPos s.cardsInHolders.length
        let c := s.cards cardToDeal
        let c' : Card :=
          { c with
            targetX := targetPos.1
            targetY := targetPos.2.1
            moveTimeElapsed := 0
            initialX := c.x
            initialY := c.y
            initialRotation := c.rotation
            targetRotation := targetPos.2.2 }
        { s with
          bottomStack := s.bottomStack.dropLast
          cardsInHolders := s.cardsInHolders ++ [cardToDeal]
          movingCards := s.movingCards ++ [cardToDeal]
          dealCardCooldown := winSequenceDealCooldown
          animationDuration := boostedAnimationDuration
          moveInterval := winSequenceDealCooldown - 50
          cards := fun i => if i = cardToDeal then c' else s.cards i }

/-- The conservation invariant the dealing phase actually maintains: the
main, top and bottom stacks are pairwise disjoint (and duplicate-free) and
together hold exactly the 144 cards, while every in-flight card is
simultaneously a member of its destination stack. -/
def okState (s : AceState) : Prop :=
  (s.mainStack ++ s.topStack ++ s.bottomStack).Nodup ∧
  s.mainStack.length + s.topStack.length + s.bottomStack.length = 144 ∧
  ∀ i ∈ s.movingCards, i ∈ s.topStack ++ s.bottomStack

/-- A card placement with everything at zero, standing in for an arbitrary
random pile placement in concrete evaluations. -/
def zeroCard : Card :=
  { x := 0, y := 0, rotation := 0, initialX := 0, targetX := 0, initialY := 0
    targetY := 0, moveTimeElapsed := 0, initialRotation := 0, targetRotation := 0 }

/-- A concrete scene start with all layout quantities zero. -/
def sampleInit : AceState :=
  initState (fun _ => zeroCard) 0 0 0 0 0 (fun _ => (0, 0, 0))

/-- The shape the scene is in when the win sequence can begin: the main pile
has been exhausted and the bottom stack is non-empty (after the full deal it
holds the 72 even-dealt cards; one is enough for the statements below). -/
def preWinState : AceState :=
  { sampleInit with mainStack := [], bottomStack := [0], moveCooldown := 10 }

end AceOfShadows


namespace Utils

theorem matchTag_spec (cs w r : List Char) (h : matchTag cs = some (w, r)) :
    cs = w ++ rbraceChar :: r ∧ w ≠ [] ∧ ∀ c ∈ w, isWordChar c = true := by
  induction cs generalizing w r with
  | nil => simp [matchTag] at h
  | cons c cs ih =>
    simp only [matchTag] at h
    by_cases hw : isWordChar c
    · simp only [hw, if_true] at h
      cases cs with
      | nil => simp at h
      | cons d ds =>
        by_cases hd : d = rbraceChar
        · simp only [hd, if_true, List.tail_cons, Option.some.injEq, Prod.mk.injEq] at h
          obtain ⟨hw', hr⟩ := h
          subst hw' hr
          refine ⟨by simp [hd], by simp, ?_⟩
          intro x hx
          simp at hx
          subst hx; exact hw
        · simp only [hd, if_false, Option.map_eq_some'] at h
          obtain ⟨⟨w', r'⟩, hm, hp⟩ := h
          obtain ⟨hw', hr'⟩ := Prod.mk.injEq .. ▸ hp
          obtain ⟨h1, h2, h3⟩ := ih w' r' hm
          subst hr'
          refine ⟨?_, by simp [← hw'], ?_⟩
          · rw [← hw']; simpa using congrArg (c :: ·) h1
          · intro x hx
            rw [← hw'] at hx
            rcases List.mem_cons.mp hx with hx | hx
            · subst hx; exact hw
            · exact h3 x hx
    · simp [hw] at h

theorem matchTag_length (cs w r : List Char) (h : matchTag cs = some (w, r)) :
    r.length < cs.length := by
  have := (matchTag_spec cs w r h).1
  subst this
  simp [List.length_append]
  omega

theorem scanF_reassemble (fuel : Nat) (cs : List Char) (h : cs.length ≤ fuel) :
    reassemble (scanF fuel cs) = cs := by
  induction fuel generalizing cs with
  | zero =>
    have : cs = [] := List.length_eq_zero.mp (Nat.le_zero.mp h)
    subst this
    rfl
  | succ fuel ih =>
    cases cs with
    | nil => rfl
    | cons c cs =>
      simp only [List.length_cons, Nat.succ_le_succ_iff] at h
      simp only [scanF]
      by_cases hc : c = lbraceChar
      · simp only [hc, if_true]
        cases hm : matchTag cs with
        | some p =>
          obtain ⟨w, r⟩ := p
          obtain ⟨heq, _, _⟩ := matchTag_spec cs w r hm
          have hr : r.length ≤ fuel := by
            have := matchTag_length cs w r hm
            omega
          simp only [reassemble, List.flatMap_cons] at *
          rw [ih r hr]
          simp [heq]
        | none =>
          simp only [reassemble, List.flatMap_cons] at *
          rw [ih cs h]
          rfl
      · simp only [hc, if_false]
        simp only [reassemble, List.flatMap_cons] at *
        rw [ih cs h]
        rfl

theorem scanF_tags_sound (fuel : Nat) (cs : List Char) (w : List Char)
    (h : Piece.tag w ∈ scanF fuel cs) :
    w ≠ [] ∧ ∀ c ∈ w, isWordChar c = true := by
  induction fuel generalizing cs with
  | zero => simp [scanF] at h
  | succ fuel ih =>
    cases cs with
    | nil => simp [scanF] at h
    | cons c cs =>
      simp only [scanF] at h
      by_cases hc : c = lbraceChar
      · simp only [hc, if_true] at h
        cases hm : matchTag cs with
        | some p =>
          obtain ⟨w', r⟩ := p
          rw [hm] at h
          rcases List.mem_cons.mp h with h | h
          · obtain ⟨_, hne, hword⟩ := matchTag_spec cs w' r hm
            cases Piece.tag.inj h
            exact ⟨hne, hword⟩
          · exact ih r h
        | none =>
          rw [hm] at h
          rcases List.mem_cons.mp h with h | h
          · exact absurd h (by simp)
          · exact ih cs h
      · simp only [hc, if_false] at h
        rcases List.mem_cons.mp h with h | h
        · exact absurd h (by simp)
        · exact ih cs h

theorem sdata_append (a b : String) : (a ++ b).data = a.data ++ b.data := by
  cases a; cases b; rfl

theorem sext (a b : String) (h : a.data = b.data) : a = b := by
  cases a; cases b; exact congrArg String.mk h

theorem foldl_append_data (l : List String) (acc : String) :
    (l.foldl (fun r s => r ++ s) acc).data = acc.data ++ (l.map String.data).flatten := by
  induction l generalizing acc with
  | nil => simp
  | cons s l ih => simp [ih, sdata_append, List.append_assoc]

theorem join_data (l : List String) :
    (String.join l).data = (l.map String.data).flatten := by
  rw [show String.join l = l.foldl (fun r s => r ++ s) "" from rfl,
    foldl_append_data]
  rfl

theorem render_of_lits (m : List (String × String)) (size : Nat) (ps : List Piece)
    (h : ps.all pieceIsLit = true) :
    ((ps.map (renderPiece m size)).map String.data).flatten = reassemble ps := by
  induction ps with
  | nil => rfl
  | cons p ps ih =>
    cases p with
    | lit c =>
      simp only [List.all_cons, Bool.and_eq_true] at h
      simp only [List.map_cons, List.flatten_cons, reassemble, List.flatMap_cons]
      rw [← reassemble, ih h.2]
      rfl
    | tag w => simp [pieceIsLit] at h

/-- C8: `textToHtmlWithEmojis` maps `"Hello {smile} world"` with `smile` in
the emoji map to `"Hello "` + the inline `<img>` (sized from the current
font size, 35px for font size 32) + `" world"`, and `"Hello {unknown} world"`
with an unrecognized tag to `"Hello "` + the fallback replacement-glyph span
+ `" world"`; the surrounding plain text is untouched and in order, with no
characters lost or duplicated. -/
theorem emojiSubstitution_examples (b : String) :
    textToHtmlWithEmojis "Hello \x7bsmile\x7d world" [("smile", b)] 32 =
      "Hello " ++ imgTag b 35 ++ " world" ∧
    textToHtmlWithEmojis "Hello \x7bunknown\x7d world" [("smile", b)] 32 =
      "Hello " ++ fallbackSpan 35 ++ " world" := by
  obtain ⟨bl⟩ := b
  constructor
  · apply sext
    rw [show textToHtmlWithEmojis "Hello \x7bsmile\x7d world" [("smile", ⟨bl⟩)] 32 =
      String.join ((scan "Hello \x7bsmile\x7d world".data).map
        (renderPiece [("smile", ⟨bl⟩)] 35)) from rfl]
    rw [show scan "Hello \x7bsmile\x7d world".data =
      [Piece.lit 'H', Piece.lit 'e', Piece.lit 'l', Piece.lit 'l', Piece.lit 'o',
       Piece.lit ' ', Piece.tag ['s','m','i','l','e'], Piece.lit ' ',
       Piece.lit 'w', Piece.lit 'o', Piece.lit 'r', Piece.lit 'l', Piece.lit 'd'] from rfl]
    rw [join_data]
    simp [renderPiece, sdata_append, String.singleton,
      show processEmojiMatch "smile" [("smile", ⟨bl⟩)] 35 = imgTag ⟨bl⟩ 35 from rfl,
      imgTag, imgStyle]
  · apply sext
    rw [show textToHtmlWithEmojis "Hello \x7bunknown\x7d world" [("smile", ⟨bl⟩)] 32 =
      String.join ((scan "Hello \x7bunknown\x7d world".data).map
        (renderPiece [("smile", ⟨bl⟩)] 35)) from rfl]
    rw [show scan "Hello \x7bunknown\x7d world".data =
      [Piece.lit 'H', Piece.lit 'e', Piece.lit 'l', Piece.lit 'l', Piece.lit 'o',
       Piece.lit ' ', Piece.tag ['u','n','k','n','o','w','n'], Piece.lit ' ',
       Piece.lit 'w', Piece.lit 'o', Piece.lit 'r', Piece.lit 'l', Piece.lit 'd'] from rfl]
    rw [join_data]
    simp [renderPiece, sdata_append, String.singleton,
      show processEmojiMatch "unknown" [("smile", ⟨bl⟩)] 35 = fallbackSpan 35 from rfl]

/-- C10: the scanner treats a braced token as a tag only when its content is
a nonempty run of word characters; any text whose scan produces no tag — in
particular one whose braced tokens all contain a non-word character, such as
`"{:-)}"` or `"{two words}"` — is emitted unchanged, braces included, with
neither an image nor the fallback glyph substituted. -/
theorem bracedToken_wordCharsOnly (text : String) (m : List (String × String))
    (fontSize : Nat) :
    (∀ w, Piece.tag w ∈ scan text.data → w ≠ [] ∧ ∀ c ∈ w, isWordChar c = true) ∧
    ((scan text.data).all pieceIsLit = true →
      textToHtmlWithEmojis text m fontSize = text) := by
  constructor
  · intro w hw
    exact scanF_tags_sound _ _ w hw
  · intro h
    apply sext
    rw [show textToHtmlWithEmojis text m fontSize =
      String.join ((scan text.data).map (renderPiece m (emojiSizeOf fontSize))) from rfl]
    rw [join_data, render_of_lits _ _ _ h, scan,
      scanF_reassemble _ _ (le_refl _)]

/-- Witness for C10 at the concrete inputs `"Hello {:-)} world"` and
`"{two words}"`: their scans contain no tag and the texts pass through
`textToHtmlWithEmojis` unchanged. -/
theorem bracedToken_wordCharsOnly_witness :
    ((scan "Hello \x7b:-)\x7d world".data).all pieceIsLit = true ∧
      textToHtmlWithEmojis "Hello \x7b:-)\x7d world" [("smile", "s")] 32 =
        "Hello \x7b:-)\x7d world") ∧
    ((scan "\x7btwo words\x7d".data).all pieceIsLit = true ∧
      textToHtmlWithEmojis "\x7btwo words\x7d" [] 40 = "\x7btwo words\x7d") :=
  ⟨⟨by decide,
    (bracedToken_wordCharsOnly "Hello \x7b:-)\x7d world" [("smile", "s")] 32).2 (by decide)⟩,
   ⟨by decide,
    (bracedToken_wordCharsOnly "\x7btwo words\x7d" [] 40).2 (by decide)⟩⟩

end Utils

namespace AssetLoader

theorem count_true_of_all (l : List Bool) (h : l.all id = true) :
    l.count true = l.length := by
  rw [List.count_eq_length]
  intro b hb
  exact (List.all_eq_true.mp h b hb).symm

/-- C2 counterexample: on the shipped manifest, a single failed asset can
abort the whole load: with only the background video failing (a per-asset
network/decode error, not a top-level condition), `createBackgroundVideoTexture`'s
catch rethrows and `loadAllAssets` rejects instead of resolving. -/
theorem loadAllAssets_videoFailure_aborts :
    loadAllResolves (shippedOutcomes true false true [true, true] true) = false := by
  decide

/-- C2 as the code has it: the no-abort policy holds for the dialogue,
particle-config and audio categories — a failure there still resolves the
category, bumps the completed counter once per declared asset of the
category on top of the per-asset marks, and nulls every cache key of the
category — while `loadAllAssets` resolves exactly when every regular sprite
and background video loaded, a failure there rejecting the whole
operation. -/
theorem loadAllAssets_failure_policy (o : Outcomes) :
    (loadAllResolves o = (o.regular.all id && o.video.all id)) ∧
    (o.dialogue.all id = false →
      catKeyNull o.dialogue = true ∧
      catMarks o.dialogue = countTrue o.dialogue + o.dialogue.length) ∧
    (o.particle.all id = false →
      catKeyNull o.particle = true ∧
      catMarks o.particle = countTrue o.particle + o.particle.length) ∧
    audioMarks o.audio = o.audio.length := by
  refine ⟨rfl, ?_, ?_, rfl⟩ <;>
    · intro h
      simp [catKeyNull, catMarks, h]

/-- Witness for C2's amended statement: the shipped manifest with the remote
dialogue document failing — the document's key is nulled and the counter is
bumped for it. -/
theorem loadAllAssets_failure_policy_witness :
    ((shippedOutcomes true true false [true, true] true).dialogue.all id = false) ∧
    (catKeyNull (shippedOutcomes true true false [true, true] true).dialogue = true ∧
      catMarks (shippedOutcomes true true false [true, true] true).dialogue =
        countTrue (shippedOutcomes true true false [true, true] true).dialogue + 1) :=
  ⟨by decide,
   (loadAllAssets_failure_policy (shippedOutcomes true true false [true, true] true)).2.1
     (by decide)⟩

/-- C3 counterexample: a run of the shipped manifest that resolves and in
which the second particle config fails after the first one succeeded ends
with the completed counter at 23 of 22 declared assets — the last reported
progress value is `23/22`, not `1.0`. -/
theorem lastProgress_overshoot :
    loadAllResolves (shippedOutcomes true true true [true, false] true) = true ∧
    lastProgress (shippedOutcomes true true true [true, false] true) = 23 / 22 ∧
    lastProgress (shippedOutcomes true true true [true, false] true) ≠ 1 := by
  refine ⟨by decide, ?_, ?_⟩ <;>
    · norm_num [lastProgress, shippedOutcomes, completedAssets, totalAssets,
        regularMarks, videoMarks, catMarks, audioMarks, countTrue]

/-- C3 as the code has it: in a run that resolves (so every regular sprite
and the video loaded, each marking once), the final reported value is `1.0`
exactly when each of the dialogue and particle-config categories was
all-or-nothing; a partial failure in either overcounts and pushes the last
value above `1.0`. -/
theorem lastProgress_eq_one_iff (o : Outcomes)
    (hres : loadAllResolves o = true) (hN : 0 < totalAssets o) :
    lastProgress o = 1 ↔ (allOrNothing o.dialogue ∧ allOrNothing o.particle) := by
  have hrv : o.regular.all id = true ∧ o.video.all id = true := by
    simpa [loadAllResolves, regularResolves, videoResolves,
      Bool.and_eq_true] using hres
  have hreg : o.regular.count true = o.regular.length := count_true_of_all _ hrv.1
  have hvid : o.video.count true = o.video.length := count_true_of_all _ hrv.2
  have hdle : o.dialogue.count true ≤ o.dialogue.length :=
    List.count_le_length true o.dialogue
  have hple : o.particle.count true ≤ o.particle.length :=
    List.count_le_length true o.particle
  rw [lastProgress, div_eq_one_iff_eq (by exact_mod_cast hN.ne'), Nat.cast_inj]
  simp only [completedAssets, totalAssets, regularMarks, videoMarks, catMarks,
    audioMarks, countTrue, allOrNothing, hreg, hvid]
  by_cases hd : o.dialogue.all id = true <;> by_cases hp : o.particle.all id = true
  · have h1 := count_true_of_all _ hd
    have h2 := count_true_of_all _ hp
    rw [if_pos hd, if_pos hp]
    exact ⟨fun _ => ⟨Or.inl hd, Or.inl hp⟩, fun _ => by omega⟩
  · have h1 := count_true_of_all _ hd
    rw [if_pos hd, if_neg hp]
    constructor
    · intro h
      exact ⟨Or.inl hd, Or.inr (by omega)⟩
    · rintro ⟨-, hp' | hp'⟩
      · exact absurd hp' hp
      · omega
  · have h2 := count_true_of_all _ hp
    rw [if_neg hd, if_pos hp]
    constructor
    · intro h
      exact ⟨Or.inr (by omega), Or.inl hp⟩
    · rintro ⟨hd' | hd', -⟩
      · exact absurd hd' hd
      · omega
  · rw [if_neg hd, if_neg hp]
    constructor
    · intro h
      exact ⟨Or.inr (by omega), Or.inr (by omega)⟩
    · rintro ⟨hd' | hd', hp' | hp'⟩ <;>
        first
          | exact absurd hd' hd
          | exact absurd hp' hp
          | omega

/-- Witness for C3's amended statement: the all-success run of the shipped
manifest resolves with 22 declared assets and its last reported value is
exactly `1.0`. -/
theorem lastProgress_eq_one_iff_witness :
    loadAllResolves (shippedOutcomes true true true [true, true] true) = true ∧
    0 < totalAssets (shippedOutcomes true true true [true, true] true) ∧
    lastProgress (shippedOutcomes true true true [true, true] true) = 1 :=
  ⟨by decide, by decide,
   (lastProgress_eq_one_iff (shippedOutcomes true true true [true, true] true)
       (by decide) (by decide)).mpr
     ⟨Or.inl (by decide), Or.inl (by decide)⟩⟩

end AssetLoader

namespace SceneHost

/-- C4: teardown does not stop every per-frame callback.  The game's
`update` listener is registered with the game instance as its context, but
`GameScene.destroy` calls `ticker.remove(this.game.update, this)` with the
`GameScene` as context — PIXI removes only listeners whose callback *and*
context both match, so nothing is removed there.  `PhoenixFlame.destroy`
and `AceOfShadows.destroy` never remove `update` themselves, so after
teardown of those scenes the stale `update` listener is still on the shared
ticker and is invoked on every subsequent frame (`PhoenixFlame.update` then
drives two already-destroyed emitters).  Only `MagicWords` removes its own
`update`.  This contradicts `GameScene.destroy`'s doc comment ("Removes the
game instance from the ticker"). -/
theorem gameSceneDestroy_staleUpdate :
    gameSceneDestroy phoenixFlameDestroy (gameStart []) =
      [(TickerFn.update, TickerCtx.game)] ∧
    (TickerFn.update, TickerCtx.game) ∈
      gameSceneDestroy aceOfShadowsDestroy (gameStart []) ∧
    gameSceneDestroy magicWordsDestroy (gameStart []) = [] := by
  decide

end SceneHost

namespace MagicWords

/-- C5: when the remote dialogue fetch failed, the cache holds `null`; the
current `MagicWords` scene then throws a `TypeError` out of
`isDialogueComplete` the moment `showCurrentDialogue` runs (at the end of
the banner fade-in), instead of rendering anything — there is no error view
in its render repertoire (`ShownView`), so no visible in-scene error message
appears. -/
theorem showCurrentDialogue_fetchFailure_throws (d : DialogueData) (idx : Nat) :
    showCurrentDialogue (cachedDialogueData false d) idx =
      Except.error JsError.typeErrorNullDeref := rfl

end MagicWords

namespace AceOfShadows

theorem deal_lists_ok (main top bottom moving : List Nat) (c : Nat)
    (hms : main.getLast? = some c)
    (hnd : (main ++ top ++ bottom).Nodup)
    (hlen : main.length + top.length + bottom.length = 144)
    (hmov : ∀ i ∈ moving, i ∈ top ++ bottom) :
    ((main.dropLast ++ (top ++ [c]) ++ bottom).Nodup ∧
      main.dropLast.length + (top ++ [c]).length + bottom.length = 144 ∧
      ∀ i ∈ moving ++ [c], i ∈ (top ++ [c]) ++ bottom) ∧
    ((main.dropLast ++ top ++ (bottom ++ [c])).Nodup ∧
      main.dropLast.length + top.length + (bottom ++ [c]).length = 144 ∧
      ∀ i ∈ moving ++ [c], i ∈ top ++ (bottom ++ [c])) := by
  have hne : main ≠ [] := by
    intro he
    rw [he] at hms
    simp at hms
  have hc : c = main.getLast hne := by
    rw [List.getLast?_eq_getLast_of_ne_nil hne, Option.some.injEq] at hms
    exact hms.symm
  have hsplit : main.dropLast ++ [c] = main := by
    rw [hc]
    exact List.dropLast_append_getLast hne
  have hlenpos : 0 < main.length := List.length_pos.mpr hne
  have hdl : main.dropLast.length = main.length - 1 := List.length_dropLast main
  constructor
  · refine ⟨?_, ?_, ?_⟩
    · have hperm :
          (main.dropLast ++ (top ++ [c]) ++ bottom).Perm (main ++ top ++ bottom) := by
        refine List.perm_iff_count.mpr (fun a => ?_)
        conv_rhs => rw [← hsplit]
        simp only [List.count_append]
        omega
      exact hperm.nodup_iff.mpr hnd
    · simp only [List.length_append, List.length_cons, List.length_nil, hdl]
      omega
    · intro i hi
      rcases List.mem_append.mp hi with hi | hi
      · rcases List.mem_append.mp (hmov i hi) with h | h
        · exact List.mem_append.mpr (Or.inl (List.mem_append.mpr (Or.inl h)))
        · exact List.mem_append.mpr (Or.inr h)
      · simp only [List.mem_singleton] at hi
        subst hi
        exact List.mem_append.mpr (Or.inl (List.mem_append.mpr (Or.inr (by simp))))
  · refine ⟨?_, ?_, ?_⟩
    · have hperm :
          (main.dropLast ++ top ++ (bottom ++ [c])).Perm (main ++ top ++ bottom) := by
        refine List.perm_iff_count.mpr (fun a => ?_)
        conv_rhs => rw [← hsplit]
        simp only [List.count_append]
        omega
      exact hperm.nodup_iff.mpr hnd
    · simp only [List.length_append, List.length_cons, List.length_nil, hdl]
      omega
    · intro i hi
      rcases List.mem_append.mp hi with hi | hi
      · rcases List.mem_append.mp (hmov i hi) with h | h
        · exact List.mem_append.mpr (Or.inl h)
        · exact List.mem_append.mpr (Or.inr (List.mem_append.mpr (Or.inl h)))
      · simp only [List.mem_singleton] at hi
        subst hi
        exact List.mem_append.mpr (Or.inr (List.mem_append.mpr (Or.inr (by simp))))

theorem initState_ok (cardsInit : Nat → Card) (tex tey bex bey off : ℚ)
    (hp : Nat → ℚ × ℚ × ℚ) :
    okState (initState cardsInit tex tey bex bey off hp) := by
  refine ⟨?_, by simp [initState], by simp [initState]⟩
  simp [initState, List.nodup_range]

theorem dealTopCard_ok (r : Bool) (s : AceState) (h : okState s) :
    okState (dealTopCard r s) := by
  obtain ⟨hnd, hlen, hmov⟩ := h
  cases hms : s.mainStack.getLast? with
  | none => exact ⟨by simpa [dealTopCard, hms] using hnd,
      by simpa [dealTopCard, hms] using hlen,
      by simpa [dealTopCard, hms] using hmov⟩
  | some c =>
    have hall := deal_lists_ok s.mainStack s.topStack s.bottomStack s.movingCards c
      hms hnd hlen hmov
    by_cases ht : s.currentTarget
    · simp only [dealTopCard, hms, ht, if_true]
      exact hall.1
    · simp only [dealTopCard, hms, ht, if_false]
      exact hall.2

theorem update_ok (dt : ℚ) (r : Bool) (s : AceState) (h : okState s) :
    okState (update dt r s) := by
  have hmid :
      okState (if s.moveCooldown - dt ≤ 0 ∧ s.mainStack ≠ [] then
        { dealTopCard r { s with moveCooldown := s.moveCooldown - dt } with
            moveCooldown := s.moveInterval }
      else { s with moveCooldown := s.moveCooldown - dt }) := by
    split
    · have h1 : okState { s with moveCooldown := s.moveCooldown - dt } := h
      exact dealTopCard_ok r _ h1
    · exact h
  set s2 := (if s.moveCooldown - dt ≤ 0 ∧ s.mainStack ≠ [] then
        { dealTopCard r { s with moveCooldown := s.moveCooldown - dt } with
            moveCooldown := s.moveInterval }
      else { s with moveCooldown := s.moveCooldown - dt }) with hs2
  obtain ⟨h1, h2, h3⟩ := hmid
  refine ⟨h1, h2, ?_⟩
  intro i hi
  have : i ∈ s2.movingCards := (List.mem_filter.mp hi).1
  exact h3 i this

set_option maxRecDepth 8000 in
/-- C1 counterexample: on the very first expired-metronome frame (16 ms into
the scene), `dealTopCard` pushes card 143 onto *both* the top stack and the
in-flight list, so membership is not exclusive and the four collections'
sizes sum to 145, not 144. -/
theorem cardCollections_notExclusive :
    (update 16 true sampleInit).mainStack.length +
      (update 16 true sampleInit).topStack.length +
      (update 16 true sampleInit).bottomStack.length +
      (update 16 true sampleInit).movingCards.length = 145 ∧
    143 ∈ (update 16 true sampleInit).topStack ∧
    143 ∈ (update 16 true sampleInit).movingCards := by
  simp only [update, sampleInit, initState]
  rw [if_pos (⟨by norm_num, by simp⟩ : ((0:ℚ) - 16 ≤ 0 ∧ List.range 144 ≠ []))]
  simp only [dealTopCard, updateMovingCards,
    show (144:ℕ) = 143 + 1 from by norm_num, List.range_succ, List.getLast?_concat,
    List.dropLast_concat]
  norm_num [movingCardDone, stepMovingCard, min_def]

/-- C1 as the code has it: the conservation invariant the dealing phase
maintains is that the main pile, top stack and bottom stack partition the
144 cards (pairwise disjoint, duplicate-free, sizes summing to 144 — no
card created or destroyed), while every in-flight card is simultaneously a
member of its destination stack; it holds at scene start and is preserved by
every per-frame `update` (hence the four-way sum equals `144 + |inFlight|`,
not 144). -/
theorem cardConservation (cardsInit : Nat → Card) (tex tey bex bey off : ℚ)
    (hp : Nat → ℚ × ℚ × ℚ) (dt : ℚ) (r : Bool) (s : AceState) :
    okState (initState cardsInit tex tey bex bey off hp) ∧
    (okState s → okState (update dt r s)) :=
  ⟨initState_ok cardsInit tex tey bex bey off hp, update_ok dt r s⟩

/-- Witness for C1's amended statement at the concrete scene start and its
first frame. -/
theorem cardConservation_witness :
    okState sampleInit ∧ okState (update 16 true sampleInit) :=
  ⟨(cardConservation (fun _ => zeroCard) 0 0 0 0 0 (fun _ => (0, 0, 0)) 16 true
      sampleInit).1,
   (cardConservation (fun _ => zeroCard) 0 0 0 0 0 (fun _ => (0, 0, 0)) 16 true
      sampleInit).2
     ((cardConservation (fun _ => zeroCard) 0 0 0 0 0 (fun _ => (0, 0, 0)) 16 true
        sampleInit).1)⟩

/-- C6 counterexample: a card lying at rotation 0 dealt to the top stack has
target rotation `3π/2`; the direction draw `Math.random() > 0.5` can come up
clockwise, and then the code rotates by `3π/2` even though the
counter-clockwise path `π/2` is strictly shorter — the two paths are not of
equal length, yet the direction was still chosen at random.  (Rotations in
units of π.) -/
theorem rotationPath_notShortest :
    dealTargetRotation true = 3/2 ∧
    dealTargetRotation false = 1/2 ∧
    rotationAmount (dealDirection true) (dealTargetRotation true - 0) = 3/2 ∧
    rotationAmount (dealDirection false) (dealTargetRotation true - 0) = -(1/2) ∧
    |rotationAmount (dealDirection true) (dealTargetRotation true - 0)| >
      |rotationAmount (dealDirection false) (dealTargetRotation true - 0)| := by
  have h1 : rotationAmount (dealDirection true) (dealTargetRotation true - 0) = 3/2 := by
    rw [show dealDirection true = 1 from rfl, dealTargetRotation, if_pos rfl,
      rotationAmount, if_pos (by norm_num : (1:Int) > 0), if_pos (by norm_num)]
    norm_num
  have h2 : rotationAmount (dealDirection false) (dealTargetRotation true - 0) = -(1/2) := by
    rw [show dealDirection false = -1 from rfl, dealTargetRotation, if_pos rfl,
      rotationAmount, if_neg (by norm_num : ¬((-1:Int) > 0)), if_neg (by norm_num)]
    norm_num
  refine ⟨rfl, rfl, h1, h2, ?_⟩
  rw [h1, h2, abs_of_nonneg (by norm_num), abs_of_nonpos (by norm_num)]
  norm_num

/-- C6 as the code has it: the rotation target is `3π/2` for the top stack
and `π/2` for the bottom stack, the turn direction is drawn at random on
*every* deal, and the applied rotation amount is the representative of the
target-minus-current difference congruent modulo a full turn whose sign
matches the drawn direction — so its magnitude stays below one full
revolution, but it is not always the shorter path.  (Rotations in units of
π; `2` is the full turn `Math.PI * 2`.) -/
theorem rotationAmount_withinOneTurn (d : Bool) (diff : ℚ)
    (h1 : -2 < diff) (h2 : diff < 2) :
    (rotationAmount (dealDirection d) diff = diff ∨
     rotationAmount (dealDirection d) diff = diff + 2 ∨
     rotationAmount (dealDirection d) diff = diff - 2) ∧
    |rotationAmount (dealDirection d) diff| < 2 ∧
    (d = true → 0 ≤ rotationAmount (dealDirection d) diff) ∧
    (d = false → rotationAmount (dealDirection d) diff ≤ 0) := by
  cases d
  · have hdir : dealDirection false = -1 := rfl
    rw [hdir]
    have hneg : ¬((-1 : Int) > 0) := by norm_num
    by_cases hd : diff ≤ 0
    · have hval : rotationAmount (-1) diff = diff := by
        rw [rotationAmount, if_neg hneg, if_pos hd]
      rw [hval]
      refine ⟨Or.inl rfl, ?_, fun h => by simp at h, fun _ => hd⟩
      rw [abs_of_nonpos hd]
      linarith
    · push_neg at hd
      have hval : rotationAmount (-1) diff = diff - 2 := by
        rw [rotationAmount, if_neg hneg, if_neg (by linarith)]
      rw [hval]
      refine ⟨Or.inr (Or.inr rfl), ?_, fun h => by simp at h, fun _ => by linarith⟩
      rw [abs_of_nonpos (by linarith)]
      linarith
  · have hdir : dealDirection true = 1 := rfl
    rw [hdir]
    have hpos : ((1 : Int) > 0) := by norm_num
    by_cases hd : diff ≥ 0
    · have hval : rotationAmount 1 diff = diff := by
        rw [rotationAmount, if_pos hpos, if_pos hd]
      rw [hval]
      refine ⟨Or.inl rfl, ?_, fun _ => hd, fun h => by simp at h⟩
      rw [abs_of_nonneg hd]
      exact h2
    · push_neg at hd
      have hval : rotationAmount 1 diff = diff + 2 := by
        rw [rotationAmount, if_pos hpos, if_neg (by linarith)]
      rw [hval]
      refine ⟨Or.inr (Or.inl rfl), ?_, fun _ => by linarith, fun h => by simp at h⟩
      rw [abs_of_nonneg (by linarith)]
      linarith

/-- Witness for C6's amended statement at direction `true` and difference
`3π/2`. -/
theorem rotationAmount_withinOneTurn_witness :
    (-2 < (3/2 : ℚ)) ∧ ((3/2 : ℚ) < 2) ∧
    |rotationAmount (dealDirection true) (3/2)| < 2 :=
  ⟨by norm_num, by norm_num,
   (rotationAmount_withinOneTurn true (3/2) (by norm_num) (by norm_num)).2.1⟩

/-- C7: the per-frame moving-card step interpolates x, y and rotation from
the deal-start values to the targets with the ease-out cubic of the clamped
normalized elapsed time; once the elapsed time reaches the flight duration,
the card's position and rotation equal the targets exactly (no overshoot,
no residual delta) and the moving-cards loop removes the card from the
in-flight list. -/
theorem easeOutConvergence (animationDuration dt : ℚ) (c : Card)
    (hdur : 0 < animationDuration) :
    ((stepMovingCard animationDuration dt c).x =
       c.initialX + (c.targetX - c.initialX) *
         easeOutCubic (min ((c.moveTimeElapsed + dt) / animationDuration) 1) ∧
     (stepMovingCard animationDuration dt c).y =
       c.initialY + (c.targetY - c.initialY) *
         easeOutCubic (min ((c.moveTimeElapsed + dt) / animationDuration) 1) ∧
     (stepMovingCard animationDuration dt c).rotation =
       c.initialRotation + (c.targetRotation - c.initialRotation) *
         easeOutCubic (min ((c.moveTimeElapsed + dt) / animationDuration) 1)) ∧
    (animationDuration ≤ c.moveTimeElapsed + dt →
      (stepMovingCard animationDuration dt c).x = c.targetX ∧
      (stepMovingCard animationDuration dt c).y = c.targetY ∧
      (stepMovingCard animationDuration dt c).rotation = c.targetRotation ∧
      (∀ (ids : List Nat) (cards : Nat → Card) (i : Nat), i ∈ ids →
        cards i = c → i ∉ (updateMovingCards animationDuration dt ids cards).1)) := by
  have hmin : animationDuration ≤ c.moveTimeElapsed + dt →
      min ((c.moveTimeElapsed + dt) / animationDuration) 1 = 1 := by
    intro hle
    have h1 : (1:ℚ) ≤ (c.moveTimeElapsed + dt) / animationDuration :=
      (one_le_div hdur).mpr hle
    exact min_eq_right h1
  constructor
  · by_cases hge : min ((c.moveTimeElapsed + dt) / animationDuration) 1 ≥ 1
    · have heq : min ((c.moveTimeElapsed + dt) / animationDuration) 1 = 1 :=
        le_antisymm (min_le_right _ _) hge
      refine ⟨?_, ?_, ?_⟩ <;>
        · simp only [stepMovingCard]
          rw [if_pos hge, heq]
          norm_num [easeOutCubic]
    · refine ⟨?_, ?_, ?_⟩ <;>
        · simp only [stepMovingCard]
          rw [if_neg hge]
  · intro hle
    have hge : min ((c.moveTimeElapsed + dt) / animationDuration) 1 ≥ 1 := (hmin hle).ge
    refine ⟨?_, ?_, ?_, ?_⟩
    · simp only [stepMovingCard]
      rw [if_pos hge]
    · simp only [stepMovingCard]
      rw [if_pos hge]
    · simp only [stepMovingCard]
      rw [if_pos hge]
    · intro ids cards i hi hcard hmem
      have hdone : movingCardDone animationDuration dt (cards i) = true := by
        simp only [movingCardDone, hcard]
        exact decide_eq_true hge
      have := (List.mem_filter.mp hmem).2
      rw [hdone] at this
      simp at this

/-- Witness for C7 at a card past its flight duration (elapsed 0 + 2500 ms
against a 2000 ms flight): exact landing and removal from the in-flight
list. -/
theorem easeOutConvergence_witness :
    (0:ℚ) < 2000 ∧ (2000:ℚ) ≤ zeroCard.moveTimeElapsed + 2500 ∧
    (stepMovingCard 2000 2500 zeroCard).x = zeroCard.targetX ∧
    0 ∉ (updateMovingCards 2000 2500 [0] (fun _ => zeroCard)).1 :=
  ⟨by norm_num, by norm_num [zeroCard],
   ((easeOutConvergence 2000 2500 zeroCard (by norm_num)).2
      (by norm_num [zeroCard])).1,
   ((easeOutConvergence 2000 2500 zeroCard (by norm_num)).2
      (by norm_num [zeroCard])).2.2.2 [0] (fun _ => zeroCard) 0 (by simp) rfl⟩

/-- C9 counterexample: after the speed boost set the deal interval to its
boosted 10 ms, the win sequence's `dealCardToHolders` rewrites it to 150 ms
(`winSequenceDealCooldown - 50`) — the boosted interval does not persist for
the remainder of the scene. -/
theorem speedBoost_reverted_by_winSequence :
    (toggleSpeedBoost preWinState).moveInterval = boostedMoveInterval ∧
    (toggleSpeedBoost preWinState).animationDuration = boostedAnimationDuration ∧
    (dealCardToHolders 16 (toggleSpeedBoost preWinState)).moveInterval = 150 ∧
    (150 : ℚ) ≠ boostedMoveInterval := by
  refine ⟨rfl, rfl, ?_, by norm_num [boostedMoveInterval]⟩
  simp only [dealCardToHolders, toggleSpeedBoost, preWinState, sampleInit, initState,
    winSequenceDealCooldown, boostedAnimationDuration, boostedMoveInterval]
  norm_num

/-- C9 as the code has it: `toggleSpeedBoost` sets the deal interval and
flight duration to their boosted values and removes the "Hurry up!" button,
and a second invocation changes nothing at all (it is idempotent on the
whole scene state); the boosted values persist until — and only until — the
win sequence rewrites the interval. -/
theorem toggleSpeedBoost_idempotent (s : AceState) :
    toggleSpeedBoost (toggleSpeedBoost s) = toggleSpeedBoost s ∧
    (toggleSpeedBoost s).moveInterval = boostedMoveInterval ∧
    (toggleSpeedBoost s).animationDuration = boostedAnimationDuration ∧
    (toggleSpeedBoost s).hurryUpButton = false :=
  ⟨rfl, rfl, rfl, rfl⟩

end AceOfShadows
